import Mathlib

/-!
Verification of the active-learning loop driver shown in the baal
pytorch-lightning compatibility notebook
(`notebooks/compatibility/pytorch_lightning.ipynb`).

The notebook itself is glue code: it builds an `HParams` record, wraps
CIFAR10 in baal's `ActiveLearningDataset`, labels 10 items at random,
builds a `BaalTrainer` with `ndata_to_label = hparams.query_size` and a
`ResetCallback` holding a deep copy of the initial weights, and then runs

    AL_STEPS = 100
    for al_step in range(AL_STEPS):
        trainer.fit(model, datamodule=data_module)
        trainer.test(model, datamodule=data_module)
        should_continue = trainer.step(model, datamodule=data_module)
        if not should_continue:
            break

The library pieces (`ActiveLearningDataset`, `BaalTrainer.step`,
`ResetCallback`) belong to the same repository but are not part of the
notebook file, so they are modelled from the specification's contracts;
definitions carrying such a model say so in their doc comment.
-/

/-- Modelled from the spec: baal's `ActiveLearningDataset` (imported by the
notebook, implemented elsewhere in the repository) holds a fixed ordered
sequence of `n` items, each tagged labelled or unlabelled; the pool is the
unlabelled remainder.  `tags i = true` means item `i` is labelled. -/
structure ActiveLearningDataset (n : Nat) where
  tags : Fin n → Bool

variable {n : Nat}

/-- The labelled side of the partition: the items whose tag is set. -/
def labelledSet (d : ActiveLearningDataset n) : Finset (Fin n) :=
  Finset.univ.filter (fun i => d.tags i = true)

/-- The pool: the items whose tag is not set. -/
def pool (d : ActiveLearningDataset n) : Finset (Fin n) :=
  Finset.univ.filter (fun i => d.tags i = false)

/-- Number of labelled items (`len(active_dataset)` in the notebook). -/
def labelledSize (d : ActiveLearningDataset n) : Nat :=
  (labelledSet d).card

/-- Number of pool items (`poolSize()` in the spec's contract). -/
def poolSize (d : ActiveLearningDataset n) : Nat :=
  (pool d).card

/-- Modelled from the spec: `ActiveDataset.label(indices)` (baal library,
outside the notebook) marks the given items as labelled, moving them from
the pool to the labelled set. -/
def label (d : ActiveLearningDataset n) (idxs : List (Fin n)) :
    ActiveLearningDataset n :=
  ⟨fun i => d.tags i || decide (i ∈ idxs)⟩

/-- Modelled from the spec: `labelRandomly(count)` (called as
`active_dataset.label_randomly(10)` in the notebook) labels randomly chosen
pool items; the randomness is externalised by passing the chosen items. -/
def label_randomly (d : ActiveLearningDataset n) (chosen : List (Fin n)) :
    ActiveLearningDataset n :=
  label d chosen

/-- Modelled from the spec: `BaalTrainer.step` (baal library, outside the
notebook) computes per-item uncertainty outputs over the full pool, asks
the heuristic to rank them, labels the first `ndata_to_label = k` ranked
items, and signals completion when fewer than `k` items were labelled.
The model-plus-heuristic pipeline is abstracted as `rankFn`, which returns
the ranked pool items. -/
def trainerStep (rankFn : ActiveLearningDataset n → List (Fin n)) (k : Nat)
    (d : ActiveLearningDataset n) : ActiveLearningDataset n × Bool :=
  let chosen := (rankFn d).take k
  (label d chosen, chosen.length == k)

/-- Contract of the heuristic (spec: `rank(outputs) -> ordered indices`):
the ranking is an ordering of the current pool, each pool item listed
exactly once. -/
def ValidRank (rankFn : ActiveLearningDataset n → List (Fin n)) : Prop :=
  ∀ d : ActiveLearningDataset n,
    (rankFn d).Nodup ∧ ∀ i : Fin n, i ∈ rankFn d ↔ i ∈ pool d

/-- A concrete heuristic used for witnesses: rank the pool by ascending
item index. -/
def indexRank (d : ActiveLearningDataset n) : List (Fin n) :=
  (pool d).sort (· ≤ ·)

/-- The notebook's `for al_step in range(AL_STEPS)` loop with the early
`break`: runs at most `N` iterations of fit / test / step, stopping as
soon as `trainer.step` reports `should_continue = false`.  Returns the
final dataset and the number of completed steps. -/
def alLoop (rankFn : ActiveLearningDataset n → List (Fin n)) (k : Nat) :
    Nat → ActiveLearningDataset n → ActiveLearningDataset n × Nat
  | 0, d => (d, 0)
  | m + 1, d =>
    let r := trainerStep rankFn k d
    if r.2 then
      let rest := alLoop rankFn k m r.1
      (rest.1, rest.2 + 1)
    else
      (r.1, 1)

/-- The state of the dataset after `i` labelling steps, with no early
exit: the reference trajectory used to talk about "the i-th step". -/
def iterStep (rankFn : ActiveLearningDataset n → List (Fin n)) (k : Nat) :
    Nat → ActiveLearningDataset n → ActiveLearningDataset n
  | 0, d => d
  | m + 1, d => iterStep rankFn k m (trainerStep rankFn k d).1

theorem validRank_indexRank : ValidRank (indexRank (n := n)) := by
  intro d
  exact ⟨Finset.sort_nodup _ _, fun i => Finset.mem_sort _⟩

theorem labelledSet_label (d : ActiveLearningDataset n) (idxs : List (Fin n)) :
    labelledSet (label d idxs) = labelledSet d ∪ idxs.toFinset := by
  ext i
  simp [labelledSet, label]

theorem pool_label (d : ActiveLearningDataset n) (idxs : List (Fin n)) :
    pool (label d idxs) = pool d \ idxs.toFinset := by
  ext i
  simp [pool, label, and_comm]

theorem labelled_pool_disjoint (d : ActiveLearningDataset n) :
    Disjoint (labelledSet d) (pool d) := by
  rw [Finset.disjoint_left]
  intro a ha hb
  simp [labelledSet, pool] at ha hb
  simp [ha] at hb

theorem labelled_union_pool (d : ActiveLearningDataset n) :
    labelledSet d ∪ pool d = Finset.univ := by
  ext i
  simp [labelledSet, pool]

theorem labelledSize_add_poolSize (d : ActiveLearningDataset n) :
    labelledSize d + poolSize d = n := by
  have h := Finset.card_union_of_disjoint (labelled_pool_disjoint d)
  rw [labelled_union_pool d] at h
  have hn : (Finset.univ : Finset (Fin n)).card = n := by
    simp
  rw [hn] at h
  exact h.symm

theorem rankFn_toFinset (rankFn : ActiveLearningDataset n → List (Fin n))
    (hv : ValidRank rankFn) (d : ActiveLearningDataset n) :
    (rankFn d).toFinset = pool d := by
  ext x
  rw [List.mem_toFinset]
  exact (hv d).2 x

theorem rankFn_length (rankFn : ActiveLearningDataset n → List (Fin n))
    (hv : ValidRank rankFn) (d : ActiveLearningDataset n) :
    (rankFn d).length = poolSize d := by
  rw [poolSize, ← rankFn_toFinset rankFn hv d,
    List.toFinset_card_of_nodup (hv d).1]

theorem label_sizes_of_pool (d : ActiveLearningDataset n) (idxs : List (Fin n))
    (hnd : idxs.Nodup) (hsub : ∀ x ∈ idxs, x ∈ pool d) :
    labelledSize (label d idxs) = labelledSize d + idxs.length ∧
    poolSize (label d idxs) = poolSize d - idxs.length := by
  have hfin : idxs.toFinset ⊆ pool d := fun x hx => hsub x (List.mem_toFinset.mp hx)
  have hdisj : Disjoint (labelledSet d) idxs.toFinset :=
    Finset.disjoint_of_subset_right hfin (labelled_pool_disjoint d)
  have hcard : idxs.toFinset.card = idxs.length := List.toFinset_card_of_nodup hnd
  constructor
  · rw [labelledSize, labelledSet_label, Finset.card_union_of_disjoint hdisj,
      hcard, labelledSize]
  · rw [poolSize, pool_label, Finset.card_sdiff hfin, hcard, poolSize]

theorem trainerStep_chosen_nodup (rankFn : ActiveLearningDataset n → List (Fin n))
    (hv : ValidRank rankFn) (k : Nat) (d : ActiveLearningDataset n) :
    ((rankFn d).take k).Nodup :=
  List.Nodup.sublist (List.take_sublist k (rankFn d)) (hv d).1

theorem trainerStep_chosen_mem_pool (rankFn : ActiveLearningDataset n → List (Fin n))
    (hv : ValidRank rankFn) (k : Nat) (d : ActiveLearningDataset n) :
    ∀ x ∈ (rankFn d).take k, x ∈ pool d :=
  fun x hx => ((hv d).2 x).mp (List.take_subset k (rankFn d) hx)

theorem trainerStep_chosen_length (rankFn : ActiveLearningDataset n → List (Fin n))
    (hv : ValidRank rankFn) (k : Nat) (d : ActiveLearningDataset n) :
    ((rankFn d).take k).length = min k (poolSize d) := by
  rw [List.length_take, rankFn_length rankFn hv d]

theorem trainerStep_labelledSize (rankFn : ActiveLearningDataset n → List (Fin n))
    (hv : ValidRank rankFn) (k : Nat) (d : ActiveLearningDataset n) :
    labelledSize (trainerStep rankFn k d).1 = labelledSize d + min k (poolSize d) := by
  have h := (label_sizes_of_pool d ((rankFn d).take k)
    (trainerStep_chosen_nodup rankFn hv k d)
    (trainerStep_chosen_mem_pool rankFn hv k d)).1
  simp only [trainerStep]
  rw [h, trainerStep_chosen_length rankFn hv k d]

theorem trainerStep_poolSize (rankFn : ActiveLearningDataset n → List (Fin n))
    (hv : ValidRank rankFn) (k : Nat) (d : ActiveLearningDataset n) :
    poolSize (trainerStep rankFn k d).1 = poolSize d - k := by
  have h := (label_sizes_of_pool d ((rankFn d).take k)
    (trainerStep_chosen_nodup rankFn hv k d)
    (trainerStep_chosen_mem_pool rankFn hv k d)).2
  simp only [trainerStep]
  rw [h, trainerStep_chosen_length rankFn hv k d]
  omega

theorem trainerStep_snd (rankFn : ActiveLearningDataset n → List (Fin n))
    (hv : ValidRank rankFn) (k : Nat) (d : ActiveLearningDataset n) :
    (trainerStep rankFn k d).2 = decide (k ≤ poolSize d) := by
  simp only [trainerStep]
  rw [List.length_take, rankFn_length rankFn hv d]
  rcases le_or_lt k (poolSize d) with h | h
  · simp [Nat.min_eq_left h, h]
  · have : min k (poolSize d) = poolSize d := Nat.min_eq_right (Nat.le_of_lt h)
    rw [this]
    have hne : poolSize d ≠ k := Nat.ne_of_lt h
    simp [hne, Nat.not_le.mpr h]

theorem poolSize_iterStep (rankFn : ActiveLearningDataset n → List (Fin n))
    (hv : ValidRank rankFn) (k : Nat) :
    ∀ (i : Nat) (d : ActiveLearningDataset n),
      poolSize (iterStep rankFn k i d) = poolSize d - i * k := by
  intro i
  induction i with
  | zero => intro d; simp [iterStep]
  | succ m ih =>
    intro d
    show poolSize (iterStep rankFn k m (trainerStep rankFn k d).1) = _
    rw [ih, trainerStep_poolSize rankFn hv k d, Nat.sub_sub, Nat.succ_mul,
      Nat.add_comm]

theorem alLoop_snd (rankFn : ActiveLearningDataset n → List (Fin n))
    (hv : ValidRank rankFn) (k : Nat) (hk : 0 < k) :
    ∀ (N : Nat) (d : ActiveLearningDataset n),
      (alLoop rankFn k N d).2 = min N (poolSize d / k + 1) := by
  intro N
  induction N with
  | zero => intro d; simp [alLoop]
  | succ m ih =>
    intro d
    rcases le_or_lt k (poolSize d) with h | h
    · have hs : (trainerStep rankFn k d).2 = true := by
        rw [trainerStep_snd rankFn hv k d]
        exact decide_eq_true h
      have hp : poolSize (trainerStep rankFn k d).1 = poolSize d - k :=
        trainerStep_poolSize rankFn hv k d
      simp only [alLoop, hs, if_true]
      rw [ih, hp, Nat.div_eq_sub_div hk h]
      omega
    · have hs : (trainerStep rankFn k d).2 = false := by
        rw [trainerStep_snd rankFn hv k d]
        exact decide_eq_false (Nat.not_le.mpr h)
      simp only [alLoop, hs, if_false]
      rw [Nat.div_eq_of_lt h]
      simp

theorem alLoop_fst (rankFn : ActiveLearningDataset n → List (Fin n)) (k : Nat) :
    ∀ (N : Nat) (d : ActiveLearningDataset n),
      (alLoop rankFn k N d).1 = iterStep rankFn k (alLoop rankFn k N d).2 d := by
  intro N
  induction N with
  | zero => intro d; simp [alLoop, iterStep]
  | succ m ih =>
    intro d
    cases hs : (trainerStep rankFn k d).2 with
    | true =>
      simp only [alLoop, hs, if_true]
      rw [ih]
      rfl
    | false =>
      simp only [alLoop, hs, if_false]
      rfl

theorem shouldContinue_iterStep (rankFn : ActiveLearningDataset n → List (Fin n))
    (hv : ValidRank rankFn) (k : Nat) (hk : 0 < k) (d : ActiveLearningDataset n)
    (i : Nat) :
    ((trainerStep rankFn k (iterStep rankFn k i d)).2 = true ↔ i < poolSize d / k) := by
  rw [trainerStep_snd rankFn hv k, decide_eq_true_iff,
    poolSize_iterStep rankFn hv k i d, Nat.lt_iff_add_one_le,
    Nat.le_div_iff_mul_le hk, Nat.add_mul, Nat.one_mul]
  generalize i * k = q
  omega

/-- A freshly wrapped dataset: no item labelled yet. -/
def emptyDataset (n : Nat) : ActiveLearningDataset n :=
  ⟨fun _ => false⟩

/-- C1: the loop terminates after at most `N` (= `AL_STEPS` = 100)
iterations, and earlier as soon as `trainer.step` signals that the pool
has become smaller than the query size `k`: the completed-step count is
exactly `min N (poolSize d / k + 1)`, where `poolSize d / k + 1` is the
first (1-based) step whose `should_continue` signal is false — the third
conjunct shows the signal at step `i + 1` is true iff `i < poolSize d / k`.
Pool exhaustion ends the loop through the normal `break`: `alLoop` is a
total function that always returns a final state, never an error. -/
theorem C1_loop_termination (rankFn : ActiveLearningDataset n → List (Fin n))
    (hv : ValidRank rankFn) (k : Nat) (hk : 0 < k) (N : Nat)
    (d : ActiveLearningDataset n) :
    (alLoop rankFn k N d).2 ≤ N ∧
    (alLoop rankFn k N d).2 = min N (poolSize d / k + 1) ∧
    ∀ i : Nat,
      ((trainerStep rankFn k (iterStep rankFn k i d)).2 = true ↔
        i < poolSize d / k) := by
  have h := alLoop_snd rankFn hv k hk N d
  exact ⟨by omega, h, fun i => shouldContinue_iterStep rankFn hv k hk d i⟩

/-- Witness for C1 at `n = 5`, `k = 2`, `N = 3`, starting from the fresh
dataset: all hypotheses hold and the conclusion follows by applying the
theorem. -/
theorem C1_loop_termination_witness :
    ValidRank (indexRank (n := 5)) ∧ 0 < 2 ∧
    ((alLoop (indexRank (n := 5)) 2 3 (emptyDataset 5)).2 ≤ 3 ∧
     (alLoop (indexRank (n := 5)) 2 3 (emptyDataset 5)).2 =
       min 3 (poolSize (emptyDataset 5) / 2 + 1) ∧
     ∀ i : Nat,
       ((trainerStep (indexRank (n := 5)) 2
           (iterStep (indexRank (n := 5)) 2 i (emptyDataset 5))).2 = true ↔
         i < poolSize (emptyDataset 5) / 2)) :=
  ⟨validRank_indexRank, Nat.zero_lt_succ 1,
    C1_loop_termination (indexRank (n := 5)) validRank_indexRank 2
      (Nat.zero_lt_succ 1) 3 (emptyDataset 5)⟩

/-- C2: in every loop iteration, the labelling of that step grows the
labelled set by exactly `min k (poolSize d)` items and shrinks the pool by
the same amount, where `k` is the query size
(`hparams.query_size = ndata_to_label`). -/
theorem C2_step_partition_sizes (rankFn : ActiveLearningDataset n → List (Fin n))
    (hv : ValidRank rankFn) (k : Nat) (d : ActiveLearningDataset n) :
    labelledSize (trainerStep rankFn k d).1 =
      labelledSize d + min k (poolSize d) ∧
    poolSize (trainerStep rankFn k d).1 =
      poolSize d - min k (poolSize d) := by
  refine ⟨trainerStep_labelledSize rankFn hv k d, ?_⟩
  rw [trainerStep_poolSize rankFn hv k d]
  omega

/-- Witness for C2 at `n = 4`, `k = 2`, starting from the fresh dataset. -/
theorem C2_step_partition_sizes_witness :
    ValidRank (indexRank (n := 4)) ∧
    (labelledSize (trainerStep (indexRank (n := 4)) 2 (emptyDataset 4)).1 =
       labelledSize (emptyDataset 4) + min 2 (poolSize (emptyDataset 4)) ∧
     poolSize (trainerStep (indexRank (n := 4)) 2 (emptyDataset 4)).1 =
       poolSize (emptyDataset 4) - min 2 (poolSize (emptyDataset 4))) :=
  ⟨validRank_indexRank,
    C2_step_partition_sizes (indexRank (n := 4)) validRank_indexRank 2
      (emptyDataset 4)⟩

theorem mem_labelled_iff_not_pool (d : ActiveLearningDataset n) (x : Fin n) :
    x ∈ labelledSet d ↔ x ∉ pool d := by
  simp [labelledSet, pool]

/-- C3: the labelled/pool partition is exhaustive and disjoint — every
item is on exactly one side — and this holds in every dataset state, in
particular after the initial `label_randomly` and after the labelling done
by each `trainer.step`. -/
theorem C3_partition_invariant :
    ∀ d : ActiveLearningDataset n,
      (labelledSet d ∪ pool d = Finset.univ ∧
       labelledSet d ∩ pool d = ∅ ∧
       ∀ x : Fin n, x ∈ labelledSet d ↔ x ∉ pool d) ∧
      (∀ chosen : List (Fin n),
        labelledSet (label_randomly d chosen) ∪ pool (label_randomly d chosen) =
          Finset.univ ∧
        labelledSet (label_randomly d chosen) ∩ pool (label_randomly d chosen) =
          ∅) ∧
      (∀ (rankFn : ActiveLearningDataset n → List (Fin n)) (k : Nat),
        labelledSet (trainerStep rankFn k d).1 ∪ pool (trainerStep rankFn k d).1 =
          Finset.univ ∧
        labelledSet (trainerStep rankFn k d).1 ∩ pool (trainerStep rankFn k d).1 =
          ∅) := by
  intro d
  refine ⟨⟨labelled_union_pool d, ?_, fun x => mem_labelled_iff_not_pool d x⟩,
    fun chosen => ⟨labelled_union_pool _, ?_⟩,
    fun rankFn k => ⟨labelled_union_pool _, ?_⟩⟩
  · exact Finset.disjoint_iff_inter_eq_empty.mp (labelled_pool_disjoint d)
  · exact Finset.disjoint_iff_inter_eq_empty.mp (labelled_pool_disjoint _)
  · exact Finset.disjoint_iff_inter_eq_empty.mp (labelled_pool_disjoint _)

theorem mem_labelledSet (d : ActiveLearningDataset n) (x : Fin n) :
    x ∈ labelledSet d ↔ d.tags x = true := by
  simp [labelledSet]

theorem tags_label_mono (d : ActiveLearningDataset n) (idxs : List (Fin n))
    (x : Fin n) (h : d.tags x = true) : (label d idxs).tags x = true := by
  simp [label, h]

theorem tags_iterStep_mono (rankFn : ActiveLearningDataset n → List (Fin n))
    (k : Nat) : ∀ (i : Nat) (d : ActiveLearningDataset n) (x : Fin n),
      d.tags x = true → (iterStep rankFn k i d).tags x = true := by
  intro i
  induction i with
  | zero => intro d x h; exact h
  | succ m ih =>
    intro d x h
    exact ih (trainerStep rankFn k d).1 x (tags_label_mono d _ x h)

theorem iterStep_add (rankFn : ActiveLearningDataset n → List (Fin n)) (k : Nat) :
    ∀ (a b : Nat) (d : ActiveLearningDataset n),
      iterStep rankFn k (a + b) d = iterStep rankFn k b (iterStep rankFn k a d) := by
  intro a
  induction a with
  | zero => intro b d; rw [Nat.zero_add]; rfl
  | succ m ih =>
    intro b d
    have hm : m + 1 + b = m + b + 1 := by omega
    rw [hm]
    show iterStep rankFn k (m + b) (trainerStep rankFn k d).1 = _
    rw [ih b (trainerStep rankFn k d).1]
    rfl

/-- C8: labelling is monotonic — once an item is labelled (by the initial
`label_randomly` or by any `trainer.step`), it stays labelled in every
later state: after any further `label_randomly`, any further step, any
later point `j ≥ i` of the step trajectory, and in the loop's final
state. -/
theorem C8_labelling_monotonic (rankFn : ActiveLearningDataset n → List (Fin n))
    (k : Nat) :
    (∀ (d : ActiveLearningDataset n) (idxs : List (Fin n)) (x : Fin n),
        x ∈ labelledSet d → x ∈ labelledSet (label_randomly d idxs)) ∧
    (∀ (d : ActiveLearningDataset n) (x : Fin n),
        x ∈ labelledSet d → x ∈ labelledSet (trainerStep rankFn k d).1) ∧
    (∀ (i j : Nat) (d : ActiveLearningDataset n) (x : Fin n), i ≤ j →
        x ∈ labelledSet (iterStep rankFn k i d) →
        x ∈ labelledSet (iterStep rankFn k j d)) ∧
    (∀ (N : Nat) (d : ActiveLearningDataset n) (x : Fin n),
        x ∈ labelledSet d → x ∈ labelledSet (alLoop rankFn k N d).1) := by
  refine ⟨?_, ?_, ?_, ?_⟩
  · intro d idxs x h
    rw [mem_labelledSet] at h ⊢
    exact tags_label_mono d idxs x h
  · intro d x h
    rw [mem_labelledSet] at h ⊢
    exact tags_label_mono d _ x h
  · intro i j d x hij h
    rw [mem_labelledSet] at h ⊢
    have hj : j = i + (j - i) := by omega
    rw [hj, iterStep_add rankFn k i (j - i) d]
    exact tags_iterStep_mono rankFn k (j - i) _ x h
  · intro N d x h
    rw [mem_labelledSet] at h ⊢
    rw [alLoop_fst rankFn k N d]
    exact tags_iterStep_mono rankFn k _ d x h

/-- Witness for C8 at `n = 3`: item 0 is labelled initially and remains
labelled after another random labelling, after a step, and after a whole
loop run. -/
theorem C8_labelling_monotonic_witness :
    (0 : Fin 3) ∈ labelledSet (label_randomly (emptyDataset 3) [0]) ∧
    (0 : Fin 3) ∈
      labelledSet (label_randomly (label_randomly (emptyDataset 3) [0]) [1]) ∧
    (0 : Fin 3) ∈
      labelledSet (trainerStep (indexRank (n := 3)) 1
        (label_randomly (emptyDataset 3) [0])).1 ∧
    (0 : Fin 3) ∈
      labelledSet (alLoop (indexRank (n := 3)) 1 2
        (label_randomly (emptyDataset 3) [0])).1 := by
  have h0 : (0 : Fin 3) ∈ labelledSet (label_randomly (emptyDataset 3) [0]) := by
    decide
  exact ⟨h0,
    (C8_labelling_monotonic (indexRank (n := 3)) 1).1 _ [1] 0 h0,
    (C8_labelling_monotonic (indexRank (n := 3)) 1).2.1 _ 0 h0,
    (C8_labelling_monotonic (indexRank (n := 3)) 1).2.2.2 2 _ 0 h0⟩

theorem pool_emptyDataset : pool (emptyDataset n) = Finset.univ := by
  ext x
  simp [pool, emptyDataset]

theorem labelledSize_emptyDataset : labelledSize (emptyDataset n) = 0 := by
  simp [labelledSize, labelledSet, emptyDataset]

theorem poolSize_emptyDataset : poolSize (emptyDataset n) = n := by
  rw [poolSize, pool_emptyDataset]
  simp

/-- C5: the notebook scenario over 1000 items with query size `k = 100`,
budget `N = 100` and an initial random labelling of 10 items: after the
initial labelling 10 items are labelled and 990 pooled; after step 1 the
labelled set has 110 items and the pool 890; the loop completes exactly 10
steps (not 100), and afterwards the pool is empty. -/
theorem C5_end_to_end_scenario (rankFn : ActiveLearningDataset 1000 → List (Fin 1000))
    (hv : ValidRank rankFn) (init : List (Fin 1000)) (hnd : init.Nodup)
    (hlen : init.length = 10) :
    labelledSize (label_randomly (emptyDataset 1000) init) = 10 ∧
    poolSize (label_randomly (emptyDataset 1000) init) = 990 ∧
    labelledSize
      (trainerStep rankFn 100 (label_randomly (emptyDataset 1000) init)).1 = 110 ∧
    poolSize
      (trainerStep rankFn 100 (label_randomly (emptyDataset 1000) init)).1 = 890 ∧
    (alLoop rankFn 100 100 (label_randomly (emptyDataset 1000) init)).2 = 10 ∧
    poolSize (alLoop rankFn 100 100 (label_randomly (emptyDataset 1000) init)).1 = 0 := by
  have hmem : ∀ x ∈ init, x ∈ pool (emptyDataset 1000) := by
    intro x _
    rw [pool_emptyDataset]
    exact Finset.mem_univ x
  obtain ⟨hL, hP⟩ := label_sizes_of_pool (emptyDataset 1000) init hnd hmem
  rw [labelledSize_emptyDataset, hlen] at hL
  rw [poolSize_emptyDataset, hlen] at hP
  have hL0 : labelledSize (label_randomly (emptyDataset 1000) init) = 10 := hL
  have hP0 : poolSize (label_randomly (emptyDataset 1000) init) = 990 := hP
  refine ⟨hL0, hP0, ?_, ?_, ?_, ?_⟩
  · rw [trainerStep_labelledSize rankFn hv 100 _, hL0, hP0]
    omega
  · rw [trainerStep_poolSize rankFn hv 100 _, hP0]
  · rw [alLoop_snd rankFn hv 100 (by norm_num) 100 _, hP0]
    omega
  · rw [alLoop_fst rankFn 100 100 _,
      alLoop_snd rankFn hv 100 (by norm_num) 100 _, hP0,
      poolSize_iterStep rankFn hv 100 _ _, hP0]
    omega

/-- Witness for C5: the index-order heuristic over 1000 items with items
0..9 as the initial random labelling. -/
theorem C5_end_to_end_scenario_witness :
    ValidRank (indexRank (n := 1000)) ∧
    ([0, 1, 2, 3, 4, 5, 6, 7, 8, 9] : List (Fin 1000)).Nodup ∧
    ([0, 1, 2, 3, 4, 5, 6, 7, 8, 9] : List (Fin 1000)).length = 10 ∧
    (labelledSize (label_randomly (emptyDataset 1000)
        [0, 1, 2, 3, 4, 5, 6, 7, 8, 9]) = 10 ∧
     poolSize (label_randomly (emptyDataset 1000)
        [0, 1, 2, 3, 4, 5, 6, 7, 8, 9]) = 990 ∧
     labelledSize (trainerStep (indexRank (n := 1000)) 100
        (label_randomly (emptyDataset 1000)
          [0, 1, 2, 3, 4, 5, 6, 7, 8, 9])).1 = 110 ∧
     poolSize (trainerStep (indexRank (n := 1000)) 100
        (label_randomly (emptyDataset 1000)
          [0, 1, 2, 3, 4, 5, 6, 7, 8, 9])).1 = 890 ∧
     (alLoop (indexRank (n := 1000)) 100 100
        (label_randomly (emptyDataset 1000)
          [0, 1, 2, 3, 4, 5, 6, 7, 8, 9])).2 = 10 ∧
     poolSize (alLoop (indexRank (n := 1000)) 100 100
        (label_randomly (emptyDataset 1000)
          [0, 1, 2, 3, 4, 5, 6, 7, 8, 9])).1 = 0) :=
  ⟨validRank_indexRank, by decide, rfl,
    C5_end_to_end_scenario (indexRank (n := 1000)) validRank_indexRank
      [0, 1, 2, 3, 4, 5, 6, 7, 8, 9] (by decide) rfl⟩

/-- The notebook's `HParams` dataclass, with its eight fields in
declaration order.  The Python `float` learning rate is embedded as a
rational number. -/
structure HParams where
  batch_size : Nat
  data_root : String
  num_classes : Nat
  learning_rate : ℚ
  query_size : Nat
  iterations : Nat
  replicate_in_memory : Bool
  gpus : Nat

/-- `hparams = HParams()`: the default values from the dataclass. -/
def hparams : HParams :=
  ⟨10, "/tmp", 10, 1 / 1000, 100, 20, true, 1⟩

/-- The field names of the `HParams` dataclass, in declaration order,
mirroring the structure above. -/
def HParamsFieldNames : List String :=
  ["batch_size", "data_root", "num_classes", "learning_rate",
   "query_size", "iterations", "replicate_in_memory", "gpus"]

/-- `AL_STEPS = 100`: the step budget, a top-level constant of the
notebook defined outside `HParams`, just before the loop. -/
def AL_STEPS : Nat := 100

/-- The state the notebook loop acts on, config included: the active
dataset together with the `hparams` record. -/
structure ExperimentState (n : Nat) where
  dataset : ActiveLearningDataset n
  hp : HParams

/-- One iteration of the notebook loop over the full experiment state:
the trainer was built with `ndata_to_label = hparams.query_size`, so the
step labels `hp.query_size` items; fit and test do not touch the
partition or the config. -/
def experimentStep (rankFn : ActiveLearningDataset n → List (Fin n))
    (s : ExperimentState n) : ExperimentState n × Bool :=
  let r := trainerStep rankFn s.hp.query_size s.dataset
  (⟨r.1, s.hp⟩, r.2)

/-- The notebook loop over the full experiment state, with budget `N` and
the early `break`. -/
def experimentLoop (rankFn : ActiveLearningDataset n → List (Fin n)) :
    Nat → ExperimentState n → ExperimentState n × Nat
  | 0, s => (s, 0)
  | m + 1, s =>
    let r := experimentStep rankFn s
    if r.2 then
      let rest := experimentLoop rankFn m r.1
      (rest.1, rest.2 + 1)
    else
      (r.1, 1)

/-- The run exactly as the notebook performs it: the loop bound is the
top-level constant `AL_STEPS`, not a configuration field. -/
def notebookRun (rankFn : ActiveLearningDataset n → List (Fin n))
    (s : ExperimentState n) : ExperimentState n × Nat :=
  experimentLoop rankFn AL_STEPS s

/-- Counterexample to C6: the `HParams` record consists of exactly the
eight fields listed — none of them is a step budget.  The step budget is
the separate top-level constant `AL_STEPS = 100`. -/
theorem C6_counterexample :
    HParamsFieldNames =
      ["batch_size", "data_root", "num_classes", "learning_rate",
       "query_size", "iterations", "replicate_in_memory", "gpus"] ∧
    "AL_STEPS" ∉ HParamsFieldNames ∧
    "step_budget" ∉ HParamsFieldNames ∧
    "al_steps" ∉ HParamsFieldNames ∧
    AL_STEPS = 100 := by
  refine ⟨rfl, ?_, ?_, ?_, rfl⟩ <;> decide

/-- C6 (amended): the configuration is a flat record of named
hyperparameters that includes batch size, learning rate, query size,
Monte-Carlo iteration count and the replication flag (plus data root,
class count and gpu count) — but the step budget is not among its fields:
it is the separate top-level constant `AL_STEPS = 100`, which is what the
loop driver is bounded by, independently of the configuration record. -/
theorem C6_hparams_fields :
    ("batch_size" ∈ HParamsFieldNames ∧
     "learning_rate" ∈ HParamsFieldNames ∧
     "query_size" ∈ HParamsFieldNames ∧
     "iterations" ∈ HParamsFieldNames ∧
     "replicate_in_memory" ∈ HParamsFieldNames ∧
     "AL_STEPS" ∉ HParamsFieldNames ∧
     "step_budget" ∉ HParamsFieldNames ∧
     AL_STEPS = 100 ∧
     hparams.query_size = 100) ∧
    ∀ (rankFn : ActiveLearningDataset n → List (Fin n)) (s : ExperimentState n),
      notebookRun rankFn s = experimentLoop rankFn 100 s := by
  refine ⟨⟨?_, ?_, ?_, ?_, ?_, ?_, ?_, rfl, rfl⟩, fun rankFn s => rfl⟩ <;> decide

theorem experimentStep_hp (rankFn : ActiveLearningDataset n → List (Fin n))
    (s : ExperimentState n) : ((experimentStep rankFn s).1).hp = s.hp :=
  rfl

theorem experimentLoop_hp (rankFn : ActiveLearningDataset n → List (Fin n)) :
    ∀ (N : Nat) (s : ExperimentState n),
      ((experimentLoop rankFn N s).1).hp = s.hp := by
  intro N
  induction N with
  | zero => intro s; rfl
  | succ m ih =>
    intro s
    cases hs : (experimentStep rankFn s).2 with
    | true =>
      simp only [experimentLoop, hs, if_true]
      rw [ih (experimentStep rankFn s).1, experimentStep_hp]
    | false =>
      simp only [experimentLoop, hs, Bool.false_eq_true, if_false]
      exact experimentStep_hp rankFn s

/-- C9: the `hparams` record is never written after construction — after
any single iteration and after any whole run of the loop, the
configuration component of the experiment state, and every one of its
eight fields, equals its value at construction time. -/
theorem C9_hparams_immutable (rankFn : ActiveLearningDataset n → List (Fin n)) :
    (∀ s : ExperimentState n, ((experimentStep rankFn s).1).hp = s.hp) ∧
    ∀ (N : Nat) (s : ExperimentState n),
      ((experimentLoop rankFn N s).1).hp = s.hp ∧
      ((experimentLoop rankFn N s).1).hp.batch_size = s.hp.batch_size ∧
      ((experimentLoop rankFn N s).1).hp.data_root = s.hp.data_root ∧
      ((experimentLoop rankFn N s).1).hp.num_classes = s.hp.num_classes ∧
      ((experimentLoop rankFn N s).1).hp.learning_rate = s.hp.learning_rate ∧
      ((experimentLoop rankFn N s).1).hp.query_size = s.hp.query_size ∧
      ((experimentLoop rankFn N s).1).hp.iterations = s.hp.iterations ∧
      ((experimentLoop rankFn N s).1).hp.replicate_in_memory =
        s.hp.replicate_in_memory ∧
      ((experimentLoop rankFn N s).1).hp.gpus = s.hp.gpus := by
  refine ⟨experimentStep_hp rankFn, fun N s => ?_⟩
  have h := experimentLoop_hp rankFn N s
  rw [h]
  exact ⟨rfl, rfl, rfl, rfl, rfl, rfl, rfl, rfl, rfl⟩

/-- The phases a loop iteration performs, with the data each one acts
on. -/
inductive PhaseEvent (n : Nat) where
  | train (labelled : Finset (Fin n))
  | evaluate
  | predictPool (p : Finset (Fin n))
  | rank (ranked : List (Fin n))
  | select (chosen : List (Fin n))
  | labelItems (chosen : List (Fin n))

/-- The notebook loop body as a phase trace: `trainer.fit` on the current
labelled set, then `trainer.test`, then `trainer.step` — which (modelled
from the spec, the step implementation living outside the notebook)
predicts over the full pool, ranks, selects the first `k` ranked items and
labels them. -/
def stepWithTrace (rankFn : ActiveLearningDataset n → List (Fin n)) (k : Nat)
    (d : ActiveLearningDataset n) :
    (ActiveLearningDataset n × Bool) × List (PhaseEvent n) :=
  let ranked := rankFn d
  let chosen := ranked.take k
  ((label d chosen, chosen.length == k),
    [PhaseEvent.train (labelledSet d), PhaseEvent.evaluate,
     PhaseEvent.predictPool (pool d), PhaseEvent.rank ranked,
     PhaseEvent.select chosen, PhaseEvent.labelItems chosen])

/-- C4: each iteration performs train → evaluate → predict over the full
pool → rank → select the first `k` ranked items → label exactly those, in
this order with no phase skipped or reordered; the selection is
deterministic given the ranking (exactly its first `k` entries), the
prediction covers the whole current pool, the state effect agrees with
`trainerStep`, and labelling removes the selected items from the pool and
adds them to the labelled set. -/
theorem C4_phase_order (rankFn : ActiveLearningDataset n → List (Fin n))
    (hv : ValidRank rankFn) (k : Nat) (d : ActiveLearningDataset n) :
    (stepWithTrace rankFn k d).2 =
      [PhaseEvent.train (labelledSet d), PhaseEvent.evaluate,
       PhaseEvent.predictPool (pool d), PhaseEvent.rank (rankFn d),
       PhaseEvent.select ((rankFn d).take k),
       PhaseEvent.labelItems ((rankFn d).take k)] ∧
    (stepWithTrace rankFn k d).1 = trainerStep rankFn k d ∧
    (rankFn d).toFinset = pool d ∧
    pool (trainerStep rankFn k d).1 = pool d \ ((rankFn d).take k).toFinset ∧
    labelledSet (trainerStep rankFn k d).1 =
      labelledSet d ∪ ((rankFn d).take k).toFinset :=
  ⟨rfl, rfl, rankFn_toFinset rankFn hv d,
    pool_label d ((rankFn d).take k),
    labelledSet_label d ((rankFn d).take k)⟩

/-- Witness for C4 at `n = 3`, `k = 1`, on the fresh dataset. -/
theorem C4_phase_order_witness :
    ValidRank (indexRank (n := 3)) ∧
    ((stepWithTrace (indexRank (n := 3)) 1 (emptyDataset 3)).2 =
      [PhaseEvent.train (labelledSet (emptyDataset 3)), PhaseEvent.evaluate,
       PhaseEvent.predictPool (pool (emptyDataset 3)),
       PhaseEvent.rank (indexRank (emptyDataset 3)),
       PhaseEvent.select ((indexRank (emptyDataset 3)).take 1),
       PhaseEvent.labelItems ((indexRank (emptyDataset 3)).take 1)] ∧
     (stepWithTrace (indexRank (n := 3)) 1 (emptyDataset 3)).1 =
       trainerStep (indexRank (n := 3)) 1 (emptyDataset 3) ∧
     (indexRank (emptyDataset 3)).toFinset = pool (emptyDataset 3) ∧
     pool (trainerStep (indexRank (n := 3)) 1 (emptyDataset 3)).1 =
       pool (emptyDataset 3) \ ((indexRank (emptyDataset 3)).take 1).toFinset ∧
     labelledSet (trainerStep (indexRank (n := 3)) 1 (emptyDataset 3)).1 =
       labelledSet (emptyDataset 3) ∪
         ((indexRank (emptyDataset 3)).take 1).toFinset) :=
  ⟨validRank_indexRank,
    C4_phase_order (indexRank (n := 3)) validRank_indexRank 1 (emptyDataset 3)⟩

/-- The loop body with fallible collaborators: `trainer.fit`,
`trainer.test` and the uncertainty computation inside `trainer.step` may
each raise.  There is no catch: a failing phase returns the error together
with the dataset exactly as it was at that moment — in particular the
step's labelling never happens after a failing phase. -/
def fitTestStepE {ε : Type} (fitE : ActiveLearningDataset n → Except ε Unit)
    (testE : ActiveLearningDataset n → Except ε Unit)
    (predictE : ActiveLearningDataset n → Except ε (List (Fin n))) (k : Nat)
    (d : ActiveLearningDataset n) :
    Except (ε × ActiveLearningDataset n) (ActiveLearningDataset n × Bool) :=
  match fitE d with
  | Except.error e => Except.error (e, d)
  | Except.ok _ =>
    match testE d with
    | Except.error e => Except.error (e, d)
    | Except.ok _ =>
      match predictE d with
      | Except.error e => Except.error (e, d)
      | Except.ok ranked =>
        let chosen := ranked.take k
        Except.ok (label d chosen, chosen.length == k)

/-- The notebook loop over the fallible body: body errors pass straight
through to the caller, there is no retry and no catch. -/
def alLoopE {ε : Type} (fitE : ActiveLearningDataset n → Except ε Unit)
    (testE : ActiveLearningDataset n → Except ε Unit)
    (predictE : ActiveLearningDataset n → Except ε (List (Fin n))) (k : Nat) :
    Nat → ActiveLearningDataset n →
      Except (ε × ActiveLearningDataset n) (ActiveLearningDataset n × Nat)
  | 0, d => Except.ok (d, 0)
  | m + 1, d =>
    match fitTestStepE fitE testE predictE k d with
    | Except.error e => Except.error e
    | Except.ok r =>
      if r.2 then
        match alLoopE fitE testE predictE k m r.1 with
        | Except.error e => Except.error e
        | Except.ok rest => Except.ok (rest.1, rest.2 + 1)
      else
        Except.ok (r.1, 1)

/-- C7: a failure of fit, of test, or of the uncertainty computation in a
step aborts the run — the body returns the error with the dataset in
exactly its pre-phase state (no labelling after the failing phase), and
the loop forwards any body error unchanged to the caller, with no catch
and no retry. -/
theorem C7_failure_propagation {ε : Type}
    (fitE : ActiveLearningDataset n → Except ε Unit)
    (testE : ActiveLearningDataset n → Except ε Unit)
    (predictE : ActiveLearningDataset n → Except ε (List (Fin n))) (k : Nat) :
    (∀ (d : ActiveLearningDataset n) (e : ε), fitE d = Except.error e →
      fitTestStepE fitE testE predictE k d = Except.error (e, d)) ∧
    (∀ (d : ActiveLearningDataset n) (e : ε), fitE d = Except.ok () →
      testE d = Except.error e →
      fitTestStepE fitE testE predictE k d = Except.error (e, d)) ∧
    (∀ (d : ActiveLearningDataset n) (e : ε), fitE d = Except.ok () →
      testE d = Except.ok () → predictE d = Except.error e →
      fitTestStepE fitE testE predictE k d = Except.error (e, d)) ∧
    (∀ (N : Nat) (d : ActiveLearningDataset n)
        (err : ε × ActiveLearningDataset n),
      fitTestStepE fitE testE predictE k d = Except.error err →
      alLoopE fitE testE predictE k (N + 1) d = Except.error err) := by
  refine ⟨?_, ?_, ?_, ?_⟩
  · intro d e h
    simp [fitTestStepE, h]
  · intro d e h1 h2
    simp [fitTestStepE, h1, h2]
  · intro d e h1 h2 h3
    simp [fitTestStepE, h1, h2, h3]
  · intro N d err h
    simp [alLoopE, h]

/-- An always-failing fit phase, for the C7 witness. -/
def fitOOM : ActiveLearningDataset 2 → Except String Unit :=
  fun _ => Except.error "CUDA out of memory"

/-- An always-succeeding test phase, for the C7 witness. -/
def testOk : ActiveLearningDataset 2 → Except String Unit :=
  fun _ => Except.ok ()

/-- An always-succeeding uncertainty computation, for the C7 witness. -/
def predictOk : ActiveLearningDataset 2 → Except String (List (Fin 2)) :=
  fun d => Except.ok (indexRank d)

/-- Witness for C7: with a fit phase that runs out of memory, the body
fails with the dataset untouched and a 5-iteration loop surfaces exactly
that error. -/
theorem C7_failure_propagation_witness :
    fitOOM (emptyDataset 2) = Except.error "CUDA out of memory" ∧
    fitTestStepE fitOOM testOk predictOk 1 (emptyDataset 2) =
      Except.error ("CUDA out of memory", emptyDataset 2) ∧
    alLoopE fitOOM testOk predictOk 1 5 (emptyDataset 2) =
      Except.error ("CUDA out of memory", emptyDataset 2) := by
  have h1 : fitOOM (emptyDataset 2) = Except.error "CUDA out of memory" := rfl
  have h2 := (C7_failure_propagation fitOOM testOk predictOk 1).1
    (emptyDataset 2) "CUDA out of memory" h1
  exact ⟨h1, h2, (C7_failure_propagation fitOOM testOk predictOk 1).2.2.2 4
    (emptyDataset 2) ("CUDA out of memory", emptyDataset 2) h2⟩

/-- Model plus trainer state for the weight-reset behaviour: the dataset
partition together with the model weights (an abstract type `W`). -/
structure TrainerModelState (n : Nat) (W : Type) where
  dataset : ActiveLearningDataset n
  weights : W

/-- Modelled from the spec of the notebook's trainer construction: the
trainer holds `ResetCallback(copy.deepcopy(model.state_dict()))`
(`ResetCallback` itself lives in the baal library, outside the notebook);
at the start of every `trainer.fit` the callback loads the stored
snapshot into the model.  The deep copy means the snapshot value itself
never changes over the run. -/
def resetCallbackOnTrainStart {W : Type} (snapshot : W)
    (s : TrainerModelState n W) : TrainerModelState n W :=
  ⟨s.dataset, snapshot⟩

/-- `trainer.fit`: the reset callback fires at train start, then training
turns the weights into some function `trainEff` of the labelled data and
the weights it started from; the partition is unchanged. -/
def fitWithReset {W : Type} (snapshot : W)
    (trainEff : Finset (Fin n) → W → W) (s : TrainerModelState n W) :
    TrainerModelState n W :=
  let s0 := resetCallbackOnTrainStart snapshot s
  ⟨s0.dataset, trainEff (labelledSet s0.dataset) s0.weights⟩

/-- One full loop iteration with weights tracked: fit (reset, then
train), test (changes nothing), step (labels via `trainerStep`, leaves
the weights as trained). -/
def alStepWeights {W : Type} (snapshot : W)
    (trainEff : Finset (Fin n) → W → W)
    (rankFn : ActiveLearningDataset n → List (Fin n)) (k : Nat)
    (s : TrainerModelState n W) : TrainerModelState n W × Bool :=
  let s1 := fitWithReset snapshot trainEff s
  let r := trainerStep rankFn k s1.dataset
  (⟨r.1, s1.weights⟩, r.2)

/-- The trajectory of full iterations, weights included. -/
def iterWeights {W : Type} (snapshot : W)
    (trainEff : Finset (Fin n) → W → W)
    (rankFn : ActiveLearningDataset n → List (Fin n)) (k : Nat) :
    Nat → TrainerModelState n W → TrainerModelState n W
  | 0, s => s
  | m + 1, s =>
    (alStepWeights snapshot trainEff rankFn k
      (iterWeights snapshot trainEff rankFn k m s)).1

theorem iterWeights_dataset_indep {W : Type} (snapshot : W)
    (trainEff : Finset (Fin n) → W → W)
    (rankFn : ActiveLearningDataset n → List (Fin n)) (k : Nat) :
    ∀ (i : Nat) (d : ActiveLearningDataset n) (w w' : W),
      (iterWeights snapshot trainEff rankFn k i ⟨d, w⟩).dataset =
      (iterWeights snapshot trainEff rankFn k i ⟨d, w'⟩).dataset := by
  intro i
  induction i with
  | zero => intro d w w'; rfl
  | succ m ih =>
    intro d w w'
    show (trainerStep rankFn k
        (iterWeights snapshot trainEff rankFn k m ⟨d, w⟩).dataset).1 =
      (trainerStep rankFn k
        (iterWeights snapshot trainEff rankFn k m ⟨d, w'⟩).dataset).1
    rw [ih d w w']

/-- C10: every step retrains from the same starting point.  The reset
callback makes the weights at the beginning of each step's training equal
the initial snapshot; consequently the weights after any step are
`trainEff` of that step's labelled set applied to the snapshot — never to
the previous step's trained weights — and the whole trajectory is
independent of the weights the run started with: training does not carry
over between steps. -/
theorem C10_reset_callback (snapshot_type : Type) (snapshot : snapshot_type)
    (trainEff : Finset (Fin n) → snapshot_type → snapshot_type)
    (rankFn : ActiveLearningDataset n → List (Fin n)) (k : Nat) :
    (∀ s : TrainerModelState n snapshot_type,
      (resetCallbackOnTrainStart snapshot s).weights = snapshot) ∧
    (∀ (i : Nat) (s : TrainerModelState n snapshot_type),
      (iterWeights snapshot trainEff rankFn k (i + 1) s).weights =
        trainEff
          (labelledSet (iterWeights snapshot trainEff rankFn k i s).dataset)
          snapshot) ∧
    (∀ (i : Nat) (d : ActiveLearningDataset n) (w w' : snapshot_type),
      (iterWeights snapshot trainEff rankFn k (i + 1) ⟨d, w⟩).weights =
      (iterWeights snapshot trainEff rankFn k (i + 1) ⟨d, w'⟩).weights) := by
  refine ⟨fun s => rfl, fun i s => rfl, fun i d w w' => ?_⟩
  show trainEff
      (labelledSet (iterWeights snapshot trainEff rankFn k i ⟨d, w⟩).dataset)
      snapshot =
    trainEff
      (labelledSet (iterWeights snapshot trainEff rankFn k i ⟨d, w'⟩).dataset)
      snapshot
  rw [iterWeights_dataset_indep snapshot trainEff rankFn k i d w w']
